import Mathlib

/-
Shallow embedding of `src/script.py` (github-models-scraper).

Modelling conventions:
* Python dict fields that may be absent or JSON-null are embedded as `Option`
  values (`none` = absent-or-null); `dict.get(k, dflt)` becomes `Option.getD`
  and `dict.get(k, dict.get(k2))` becomes `pyGetOr`.
* `time.time()` and `st_mtime` are embedded as integers (seconds); the only
  operation the code performs on them is subtraction and comparison.
* The filesystem state at one cache path is `Option CacheFile`: `none` means
  `cache_path.is_file()` / `cache_path.exists()` is false.  A `CacheFile`
  carries its mtime and `content : Option CacheDict`, where `none` embeds an
  unreadable or JSON-malformed file (any read/parse exception).
* The single HTTP GET of `fetch_page_with_cache` is embedded as a `NetResult`
  supplied by the environment: `.ok resp` is a 2xx response whose body parsed,
  `.failed` is any transport error, non-2xx status, or malformed JSON body
  (all of these raise inside the `try` block and are handled identically).
* `save_to_cache` performs I/O; whether that I/O succeeds is the environment
  flag `saveOk`.  On failure `save_to_cache` logs and raises `CacheError`,
  which the enclosing `except Exception` of `fetch_page_with_cache` catches;
  the cache-file state after the failed write attempt (the file may have been
  created, truncated, or left untouched) is the environment field
  `fileAfterFailedSave`.
* Log output relevant to the claims is made observable as booleans in
  `FetchOut` (`networkCalled`, `fallbackWarning`) and the durably saved entry
  as `savedEntry`.
* Python strings used as path components are embedded as `List Nat` of
  code points.  `get_cache_path` builds `config.cache_dir / f"{cache_key}.json"`
  with `pathlib`, whose path equality is equality of normalized parts:
  the joined string is split at separators with empty and `.` segments
  dropped (`pathParts`), matching `PurePosixPath` parsing.
-/

/-- Raw API record (`model` in the source): an untyped mapping; each field the
normalization loop reads is an `Option` (`none` = key absent or JSON null). -/
structure RawRecord where
  name : Option String := none
  friendly_name : Option String := none
  original_name : Option String := none
  registry : Option String := none
  task : Option String := none
  publisher : Option String := none
  license : Option String := none
  description : Option String := none
  summary : Option String := none
  model_family : Option String := none
  model_version : Option String := none
  notes : Option String := none
  tags : Option (List String) := none
  rate_limit_tier : Option String := none
  supported_languages : Option (List String) := none
  max_output_tokens : Option String := none
  max_input_tokens : Option String := none
  training_data_date : Option String := none
  evaluation : Option String := none
  license_description : Option String := none
  static_model : Option Bool := none
  supported_input_modalities : Option (List String) := none
  type : Option String := none
  model_url : Option String := none
deriving DecidableEq

/-- Normalized record: the dict yielded by `get_marketplace_models`
(source lines 172-199).  `page` is always set (non-null) by construction. -/
structure NormalizedRecord where
  id : Option String
  registry : String
  name : Option String
  original_name : Option String
  friendly_name : Option String
  task : String
  publisher : String
  license : String
  description : String
  summary : String
  model_family : String
  model_version : String
  notes : String
  tags : List String
  rate_limit_tier : String
  supported_languages : List String
  max_output_tokens : String
  max_input_tokens : String
  training_data_date : String
  evaluation : String
  license_description : String
  static_model : Bool
  supported_input_modalities : List String
  type : String
  model_url : String
  page : Nat
deriving DecidableEq

/-- Python `model.get(k, model.get(k2))`: first key if present, else second. -/
def pyGetOr {α : Type} (o d : Option α) : Option α :=
  match o with
  | some v => some v
  | none => d

/-- The normalization dict built inside the `for model in models` loop of
`get_marketplace_models` (source lines 172-199), one output field per line,
in source order. -/
def normalize_model (model : RawRecord) (page : Nat) : NormalizedRecord :=
  { id := pyGetOr model.original_name model.name,
    registry := model.registry.getD (""),
    name := pyGetOr model.friendly_name model.name,
    original_name := pyGetOr model.original_name model.name,
    friendly_name := pyGetOr model.friendly_name model.name,
    task := model.task.getD ("unknown"),
    publisher := model.publisher.getD (""),
    license := model.license.getD (""),
    description := model.description.getD (""),
    summary := model.summary.getD (""),
    model_family := model.model_family.getD ("unknown"),
    model_version := model.model_version.getD (""),
    notes := model.notes.getD (""),
    tags := model.tags.getD [],
    rate_limit_tier := model.rate_limit_tier.getD (""),
    supported_languages := model.supported_languages.getD [],
    max_output_tokens := model.max_output_tokens.getD (""),
    max_input_tokens := model.max_input_tokens.getD (""),
    training_data_date := model.training_data_date.getD (""),
    evaluation := model.evaluation.getD (""),
    license_description := model.license_description.getD (""),
    static_model := model.static_model.getD false,
    supported_input_modalities := model.supported_input_modalities.getD [],
    type := model.type.getD (""),
    model_url := model.model_url.getD (""),
    page := page }

/-- Parsed content of a cache file, restricted to the schema keys the program
reads/writes (`models`, `has_next_page`, `cached_at`); each is an `Option`
because a JSON file on disk may omit any of them. -/
structure CacheDict where
  models : Option (List RawRecord) := none
  has_next_page : Option Bool := none
  cached_at : Option String := none
deriving DecidableEq

/-- Python truthiness of the parsed dict (`if cached_data:` at source line
130), under the schema-keys restriction: a dict is truthy iff nonempty. -/
def CacheDict.pyTruthy (d : CacheDict) : Bool :=
  d.models.isSome || d.has_next_page.isSome || d.cached_at.isSome

/-- `cached_data.get("models", [])` (source lines 93 and 131). -/
def CacheDict.getModels (d : CacheDict) : List RawRecord :=
  d.models.getD []

/-- `cached_data.get("has_next_page", False)` (source lines 93 and 131). -/
def CacheDict.getHasNext (d : CacheDict) : Bool :=
  d.has_next_page.getD false

/-- State of the file at one cache path: mtime plus parse outcome of its
bytes (`content = none` embeds unreadable / malformed JSON). -/
structure CacheFile where
  mtime : Int
  content : Option CacheDict
deriving DecidableEq

/-- The age check `time.time() - mod_time > cache_timeout` (source line 62).
`none` for the timeout embeds the `float('inf')` passed at source line 129,
for which the comparison is always false. -/
def isExpired (now mtime : Int) : Option Int → Bool
  | some t => decide (now - mtime > t)
  | none => false

/-- `load_cached_data(cache_path, cache_timeout)` (source lines 54-74):
`none` if the file is missing, expired, or any read/parse error occurs
(the `except` clause turns every exception into `None`). -/
def load_cached_data (file : Option CacheFile) (now : Int)
    (cache_timeout : Option Int) : Option CacheDict :=
  match file with
  | none => none
  | some cf =>
    if isExpired now cf.mtime cache_timeout then none
    else cf.content

/-- Parsed JSON body of a successful HTTP response: `results` list and the
optional `next_page_url` field (`none` = absent or JSON null). -/
structure ApiResponse where
  results : Option (List RawRecord) := none
  next_page_url : Option String := none
deriving DecidableEq

/-- Outcome of the single `requests.get` plus `.json()` parse: `.failed`
covers transport errors, non-2xx (`raise_for_status`) and malformed bodies. -/
inductive NetResult where
  | ok (resp : ApiResponse)
  | failed
deriving DecidableEq

/-- Python truthiness of `data.get("next_page_url")`: false for an absent or
null field and for the empty string. -/
def pyTruthyStr : Option String → Bool
  | some s => !(s == "")
  | none => false

/-- `has_next_page = bool(data.get("next_page_url") or (len(models) == 20))`
(source line 111), with `models = data.get("results", [])`. -/
def has_next_page_of (resp : ApiResponse) : Bool :=
  pyTruthyStr resp.next_page_url || ((resp.results.getD []).length == 20)

/-- Environment of one `fetch_page_with_cache` call: the cache-file state at
its path, the clock, the network outcome, and whether the `save_to_cache`
I/O would succeed (with the file state left behind by a failed write). -/
structure FetchEnv where
  cacheFile : Option CacheFile
  now : Int
  nowIso : String
  net : NetResult
  saveOk : Bool
  fileAfterFailedSave : Option CacheFile
deriving DecidableEq

/-- Result value of `fetch_page_with_cache`: the returned pair, or the raised
`CacheError` (source line 133). -/
inductive FetchRes where
  | ok (models : List RawRecord) (hasNext : Bool)
  | cacheError
deriving DecidableEq

/-- Observable outcome of one `fetch_page_with_cache` call: its result, plus
whether `requests.get` was issued, whether the stale-fallback warning
(source line 128) was logged, and the entry durably written by
`save_to_cache` (if any). -/
structure FetchOut where
  res : FetchRes
  networkCalled : Bool
  fallbackWarning : Bool
  savedEntry : Option CacheDict
deriving DecidableEq

/-- The `except` clause of `fetch_page_with_cache` (source lines 123-133):
if the file exists, log the fallback warning and reload ignoring expiry;
return the loaded dict if it is truthy, otherwise raise `CacheError`.
Returns (result, fallback-warning-logged). -/
def stale_fallback (file : Option CacheFile) (now : Int) : FetchRes × Bool :=
  match file with
  | none => (FetchRes.cacheError, false)
  | some cf =>
    match load_cached_data (some cf) now none with
    | some d =>
      if d.pyTruthy then (FetchRes.ok d.getModels d.getHasNext, true)
      else (FetchRes.cacheError, true)
    | none => (FetchRes.cacheError, true)

/-- `fetch_page_with_cache(url, params, headers, cache_path, cache_timeout)`
(source lines 87-133).  The fresh-cache check is `is not None` (line 91);
on network success the entry `{models, has_next_page, cached_at}` is built
and saved; a failed save raises `CacheError`, which the same `except`
clause catches, so it takes the stale-fallback path over the post-write
file state. -/
def fetch_page_with_cache (env : FetchEnv) (cache_timeout : Int) : FetchOut :=
  match load_cached_data env.cacheFile env.now (some cache_timeout) with
  | some cached_data =>
    ⟨FetchRes.ok cached_data.getModels cached_data.getHasNext, false, false, none⟩
  | none =>
    match env.net with
    | NetResult.ok resp =>
      let models := resp.results.getD []
      let hnp := has_next_page_of resp
      let cache_data : CacheDict := ⟨some models, some hnp, some env.nowIso⟩
      if env.saveOk then ⟨FetchRes.ok models hnp, true, false, some cache_data⟩
      else
        let fb := stale_fallback env.fileAfterFailedSave env.now
        ⟨fb.1, true, fb.2, none⟩
    | NetResult.failed =>
      let fb := stale_fallback env.cacheFile env.now
      ⟨fb.1, true, fb.2, none⟩

/-- `get_marketplace_models(config)` (source lines 135-209), instrumented:
`pageEnv p` is the environment the page-`p` fetch runs in, `fuel` bounds the
`while True` loop (the source enforces no page bound), and the result pairs
the yielded normalized records with the list of pages actually requested.
A `CacheError` from the fetch is caught, logged, and ends pagination;
otherwise records are yielded and the loop continues exactly when
`has_next_page` holds and the record list is nonempty
(`if not has_next_page or not models: break`). -/
def get_marketplace_models (pageEnv : Nat → FetchEnv) (cache_timeout : Int) :
    Nat → Nat → List NormalizedRecord × List Nat
  | 0, _ => ([], [])
  | fuel + 1, page =>
    match (fetch_page_with_cache (pageEnv page) cache_timeout).res with
    | FetchRes.cacheError => ([], [page])
    | FetchRes.ok models hnp =>
      let recs := models.map (fun m => normalize_model m page)
      if hnp && !models.isEmpty then
        let rest := get_marketplace_models pageEnv cache_timeout fuel (page + 1)
        (recs ++ rest.1, page :: rest.2)
      else (recs, [page])

/-- Code points of a Lean string literal (embedding of Python strings used
in path construction). -/
def strCodes (s : String) : List Nat :=
  s.data.map Char.toNat

/-- `GithubModels` pydantic configuration (source lines 39-45), with the
string-valued fields as code-point lists. -/
structure GithubModels where
  GITHUB_MARKETPLACE_BASE_URL : List Nat := strCodes ("https://github.com/marketplace")
  model_family : Option (List Nat) := none
  type : List Nat := strCodes ("models")
  cache_dir : List Nat := strCodes ("cache")
  cache_timeout : Int := 3600
deriving DecidableEq

/-- Fuel-bounded digit rendering: `pyStrAux fuel n` is the decimal digit
string of `n` (most significant first, empty for 0) whenever `n ≤ fuel`. -/
def pyStrAux : Nat → Nat → List Nat
  | 0, _ => []
  | fuel + 1, n => if n = 0 then [] else pyStrAux fuel (n / 10) ++ [48 + n % 10]

/-- Python `str(page)`: decimal digits as code points, most significant
first. -/
def pyStrNat (n : Nat) : List Nat :=
  if n = 0 then [48] else pyStrAux n n

/-- The conditional `cache_key += f"_{config.model_family}"` (source lines
50-51): the suffix is added only when `model_family` is truthy, i.e. present
and nonempty. -/
def familySuffix : Option (List Nat) → List Nat
  | none => []
  | some f => if f.isEmpty then [] else 95 :: f

/-- Split a code-point string at every path separator (47), keeping empty
segments; the result is always nonempty. -/
def pathSplit : List Nat → List (List Nat)
  | [] => [[]]
  | c :: rest =>
    match pathSplit rest with
    | [] => [[]]
    | seg :: segs => if c = 47 then [] :: seg :: segs else (c :: seg) :: segs

/-- Segments `pathlib` drops when parsing a path: empty segments (from
duplicate separators) and single-dot segments. -/
def isDropped (seg : List Nat) : Bool :=
  seg.isEmpty || (seg == [46])

/-- The `parts` of a POSIX `pathlib` path built from a code-point string:
split at separators, dropping empty and `.` segments (`..` is kept;
`pathlib` does not resolve it).  Two `pathlib` paths are equal iff their
parts are equal. -/
def pathParts (s : List Nat) : List (List Nat) :=
  (pathSplit s).filter (fun seg => !(isDropped seg))

/-- `get_cache_path(config, page)` (source lines 47-52):
`config.cache_dir / f"models_page{page}[_{family}].json"`.  The result is
the `pathlib` parts of the joined path string (47 is the separator), so the
normalization `pathlib` applies to the joined name — collapsing duplicate
separators and dropping `.` segments — is part of the model; path equality
is equality of parts.  (Root anchoring is not distinguished, which is
immaterial here: both sides of every comparison share the same
`cache_dir`, and the appended file name never starts with a separator.) -/
def get_cache_path (config : GithubModels) (page : Nat) : List (List Nat) :=
  pathParts (config.cache_dir ++ 47 ::
    (strCodes ("models_page") ++
      (pyStrNat page ++ (familySuffix config.model_family ++ strCodes (".json")))))

/-- Replace the `cached_at` field inside a cache-file state, leaving the
mtime and all other fields unchanged (used to state that `cached_at` never
influences loading). -/
def setCachedAt (file : Option CacheFile) (s : Option String) : Option CacheFile :=
  file.map (fun cf => { cf with content := cf.content.map (fun d => { d with cached_at := s }) })

/-- Concrete raw records for the witnesses and counterexamples. -/
def rmA : RawRecord := { name := some ("model-a") }

def rmB : RawRecord := { name := some ("model-b") }

def rmC : RawRecord := { name := some ("model-c") }

def rmD : RawRecord := { name := some ("model-d") }

def rmX : RawRecord := { name := some ("model-x") }

/-- Environment whose fetch is a fresh cache hit on `ms`/`hnp` (mtime now,
so never expired for a nonnegative timeout). -/
def hitEnv (ms : List RawRecord) (hnp : Bool) : FetchEnv :=
  { cacheFile := some { mtime := 0, content := some { models := some ms, has_next_page := some hnp, cached_at := none } },
    now := 0, nowIso := "", net := NetResult.failed, saveOk := true,
    fileAfterFailedSave := none }

/-- Environment with no cache file and a failed network call: its fetch
raises `CacheError`. -/
def errEnv : FetchEnv :=
  { cacheFile := none, now := 0, nowIso := "", net := NetResult.failed,
    saveOk := true, fileAfterFailedSave := none }

/-- Three-page scenario for the pagination claims: pages 1 and 2 carry two
records each with `has_next_page = true`, page 3 is empty, and every page
past 3 has an arbitrary environment `e4`. -/
def env3 (e4 : FetchEnv) : Nat → FetchEnv := fun p =>
  if p = 1 then hitEnv [rmA, rmB] true
  else if p = 2 then hitEnv [rmC, rmD] true
  else if p = 3 then hitEnv [] true
  else e4

/-- Counterexample environment for the save-failure claim: empty cache, a
successful network fetch of one record, and a failing save that leaves no
file behind. -/
def envC1 : FetchEnv :=
  { cacheFile := none, now := 0, nowIso := "T", saveOk := false,
    net := NetResult.ok { results := some [rmX], next_page_url := none },
    fileAfterFailedSave := none }

/-- Response carrying a present-but-empty `next_page_url` and no results. -/
def respC4 : ApiResponse :=
  { results := some [], next_page_url := some ("") }

/-- Environment whose fetch receives `respC4` with no cache. -/
def envC4 : FetchEnv :=
  { cacheFile := none, now := 0, nowIso := "", net := NetResult.ok respC4,
    saveOk := true, fileAfterFailedSave := none }

/-- Expired-but-loadable cache entry plus a failed network call. -/
def envW2 : FetchEnv :=
  { cacheFile := some { mtime := 0, content := some { models := some [rmX], has_next_page := some true, cached_at := some ("old") } },
    now := 100, nowIso := "", net := NetResult.failed, saveOk := true,
    fileAfterFailedSave := none }

/-- Existing but unreadable cache file plus a failed network call. -/
def envW10 : FetchEnv :=
  { cacheFile := some { mtime := 5, content := none }, now := 100, nowIso := "",
    net := NetResult.failed, saveOk := true, fileAfterFailedSave := none }

/-- Successful response used by the happy-path witnesses. -/
def respW4 : ApiResponse :=
  { results := some [rmX], next_page_url := some ("http") }

/-- No-cache environment receiving `respW4`, with a working save. -/
def envW4 : FetchEnv :=
  { cacheFile := none, now := 7, nowIso := "NOW", net := NetResult.ok respW4,
    saveOk := true, fileAfterFailedSave := none }

/-- Loadable cache-file content used by the expiry witnesses. -/
def cf9 : CacheFile :=
  { mtime := 0, content := some { models := some [], has_next_page := some false, cached_at := some ("x") } }

/-- Configuration with no family filter (all other fields default). -/
def cfgNone : GithubModels :=
  { model_family := none }

/-- Configuration whose family filter is the empty string. -/
def cfgEmpty : GithubModels :=
  { model_family := some [] }

/-- Configuration whose family filter is the string `a/b` (97, 47, 98). -/
def cfgSlash1 : GithubModels :=
  { model_family := some [97, 47, 98] }

/-- Configuration whose family filter is the string `a//b` with a duplicate
separator (97, 47, 47, 98). -/
def cfgSlash2 : GithubModels :=
  { model_family := some [97, 47, 47, 98] }

/-- C3: a cache entry at the key that is younger than the configured timeout
and loadable is returned verbatim, with no network call issued. -/
theorem fresh_cache_no_network_c3 :
    ∀ (env : FetchEnv) (t : Int) (cf : CacheFile) (d : CacheDict)
      (ms : List RawRecord) (b : Bool),
    env.cacheFile = some cf →
    env.now - cf.mtime < t →
    cf.content = some d →
    d.models = some ms →
    d.has_next_page = some b →
    fetch_page_with_cache env t = ⟨FetchRes.ok ms b, false, false, none⟩ := by
  intro env t cf d ms b h1 h2 h3 h4 h5
  have hexp : isExpired env.now cf.mtime (some t) = false := by
    simp [isExpired]
    omega
  have hload : load_cached_data env.cacheFile env.now (some t) = some d := by
    rw [h1]
    simp [load_cached_data, hexp, h3]
  unfold fetch_page_with_cache
  rw [hload]
  simp [CacheDict.getModels, CacheDict.getHasNext, h4, h5]

/-- Witness for C3 at a concrete young cache entry. -/
theorem fresh_cache_no_network_c3_witness :
    fetch_page_with_cache (hitEnv [rmX] true) 1 = ⟨FetchRes.ok [rmX] true, false, false, none⟩ :=
  fresh_cache_no_network_c3 (hitEnv [rmX] true) 1 _ _ [rmX] true rfl (by decide) rfl rfl rfl

/-- C6: a raw record with only `name` set produces a normalized record whose
`id`, `name`, `original_name` and `friendly_name` all equal that name. -/
theorem normalization_defaulting_c6 :
    ∀ (m : RawRecord) (page : Nat) (s : String),
    m.name = some s →
    m.friendly_name = none →
    m.original_name = none →
    (normalize_model m page).id = some s ∧
    (normalize_model m page).name = some s ∧
    (normalize_model m page).original_name = some s ∧
    (normalize_model m page).friendly_name = some s := by
  intro m page s h1 h2 h3
  simp [normalize_model, pyGetOr, h1, h2, h3]

/-- Witness for C6 at a concrete one-field raw record. -/
theorem normalization_defaulting_c6_witness :
    (normalize_model rmA 1).id = some ("model-a") ∧
    (normalize_model rmA 1).name = some ("model-a") ∧
    (normalize_model rmA 1).original_name = some ("model-a") ∧
    (normalize_model rmA 1).friendly_name = some ("model-a") :=
  normalization_defaulting_c6 rmA 1 ("model-a") rfl rfl rfl

/-- C10: when the network fails and the cache file exists but cannot be
loaded, the fetch raises `CacheError` despite the file's existence (the
fallback-warning log is emitted before the reload fails). -/
theorem corrupt_cache_no_fallback_c10 :
    ∀ (env : FetchEnv) (t : Int) (cf : CacheFile),
    env.net = NetResult.failed →
    env.cacheFile = some cf →
    cf.content = none →
    fetch_page_with_cache env t = ⟨FetchRes.cacheError, true, true, none⟩ := by
  intro env t cf h1 h2 h3
  have hload : load_cached_data env.cacheFile env.now (some t) = none := by
    rw [h2]
    simp [load_cached_data, h3]
  have hfb : stale_fallback env.cacheFile env.now = (FetchRes.cacheError, true) := by
    rw [h2]
    simp [stale_fallback, load_cached_data, isExpired, h3]
  unfold fetch_page_with_cache
  rw [hload, h1, hfb]

/-- Witness for C10 at a concrete unreadable cache file. -/
theorem corrupt_cache_no_fallback_c10_witness :
    fetch_page_with_cache envW10 3 = ⟨FetchRes.cacheError, true, true, none⟩ :=
  corrupt_cache_no_fallback_c10 envW10 3 { mtime := 5, content := none } rfl rfl rfl

/-- C2: when the fresh cache load misses and the network request fails, a
loadable cache entry at the key is returned with expiry ignored (regardless
of age) together with the fallback warning; with no cache file the fetch
raises `CacheError` and the driver attributes zero records to that page. -/
theorem net_failure_fallback_c2 :
    ∀ (env : FetchEnv) (t : Int),
    env.net = NetResult.failed →
    load_cached_data env.cacheFile env.now (some t) = none →
    ((∀ (cf : CacheFile) (d : CacheDict) (ms : List RawRecord) (b : Bool),
        env.cacheFile = some cf →
        load_cached_data (some cf) env.now none = some d →
        d.models = some ms →
        d.has_next_page = some b →
        fetch_page_with_cache env t = ⟨FetchRes.ok ms b, true, true, none⟩) ∧
     (env.cacheFile = none →
        fetch_page_with_cache env t = ⟨FetchRes.cacheError, true, false, none⟩ ∧
        ∀ fuel page, get_marketplace_models (fun _ => env) t (fuel + 1) page = ([], [page]))) := by
  intro env t hnet hload
  constructor
  · intro cf d ms b hcf hfb h4 h5
    have htr : d.pyTruthy = true := by
      simp [CacheDict.pyTruthy, h4]
    have hfb2 : stale_fallback env.cacheFile env.now = (FetchRes.ok ms b, true) := by
      rw [hcf]
      simp [stale_fallback, hfb, htr, CacheDict.getModels, CacheDict.getHasNext, h4, h5]
    unfold fetch_page_with_cache
    rw [hload, hnet, hfb2]
  · intro hcf
    have hfetch : fetch_page_with_cache env t = ⟨FetchRes.cacheError, true, false, none⟩ := by
      have hfb2 : stale_fallback env.cacheFile env.now = (FetchRes.cacheError, false) := by
        rw [hcf]
        rfl
      unfold fetch_page_with_cache
      rw [hload, hnet, hfb2]
    refine ⟨hfetch, ?_⟩
    intro fuel page
    have hres : (fetch_page_with_cache ((fun _ => env) page) t).res = FetchRes.cacheError := by
      rw [hfetch]
    simp [get_marketplace_models, hres]

/-- Witness for C2: an expired loadable entry is served as fallback, and a
missing file yields `CacheError` with no records for the page. -/
theorem net_failure_fallback_c2_witness :
    fetch_page_with_cache envW2 5 = ⟨FetchRes.ok [rmX] true, true, true, none⟩ ∧
    fetch_page_with_cache errEnv 5 = ⟨FetchRes.cacheError, true, false, none⟩ ∧
    get_marketplace_models (fun _ => errEnv) 5 1 9 = ([], [9]) :=
  ⟨(net_failure_fallback_c2 envW2 5 rfl (by decide)).1
      { mtime := 0, content := some { models := some [rmX], has_next_page := some true, cached_at := some ("old") } }
      { models := some [rmX], has_next_page := some true, cached_at := some ("old") }
      [rmX] true rfl (by decide) rfl rfl,
   ((net_failure_fallback_c2 errEnv 5 rfl rfl).2 rfl).1,
   ((net_failure_fallback_c2 errEnv 5 rfl rfl).2 rfl).2 0 9⟩

/-- C1 counterexample: with no pre-existing cache file, a successful network
fetch of one record followed by a failing save makes `fetch_page_with_cache`
raise `CacheError` instead of returning the fetched pair — the `CacheError`
raised by `save_to_cache` is caught by the surrounding `except` clause and
treated as a fetch failure. -/
theorem save_failure_counterexample_c1 :
    (fetch_page_with_cache envC1 0).res = FetchRes.cacheError ∧
    FetchRes.cacheError ≠ FetchRes.ok [rmX]
      (has_next_page_of { results := some [rmX], next_page_url := none }) := by
  constructor
  · rfl
  · decide

/-- C1 amended: when the HTTP request succeeds but the save fails, the
`CacheError` from `save_to_cache` is caught by the fetch's own exception
handler, so the fetched pair is discarded and the fetch behaves like a
failed fetch over the post-write file state: it raises `CacheError` if no
loadable cache file remains, and otherwise returns the stale cache contents
with the fallback warning. -/
theorem save_failure_behaves_as_fetch_failure_c1 :
    ∀ (env : FetchEnv) (t : Int) (resp : ApiResponse),
    load_cached_data env.cacheFile env.now (some t) = none →
    env.net = NetResult.ok resp →
    env.saveOk = false →
    ((env.fileAfterFailedSave = none →
        fetch_page_with_cache env t = ⟨FetchRes.cacheError, true, false, none⟩) ∧
     (∀ cf : CacheFile, env.fileAfterFailedSave = some cf → cf.content = none →
        fetch_page_with_cache env t = ⟨FetchRes.cacheError, true, true, none⟩) ∧
     (∀ (cf : CacheFile) (d : CacheDict) (ms : List RawRecord) (b : Bool),
        env.fileAfterFailedSave = some cf → cf.content = some d →
        d.models = some ms → d.has_next_page = some b →
        fetch_page_with_cache env t = ⟨FetchRes.ok ms b, true, true, none⟩)) := by
  intro env t resp hload hnet hsave
  refine ⟨?_, ?_, ?_⟩
  · intro hfile
    have hfb : stale_fallback env.fileAfterFailedSave env.now = (FetchRes.cacheError, false) := by
      rw [hfile]
      rfl
    unfold fetch_page_with_cache
    rw [hload, hnet, hsave]
    simp [hfb]
  · intro cf hfile hcontent
    have hfb : stale_fallback env.fileAfterFailedSave env.now = (FetchRes.cacheError, true) := by
      rw [hfile]
      simp [stale_fallback, load_cached_data, isExpired, hcontent]
    unfold fetch_page_with_cache
    rw [hload, hnet, hsave]
    simp [hfb]
  · intro cf d ms b hfile hcontent h4 h5
    have htr : d.pyTruthy = true := by
      simp [CacheDict.pyTruthy, h4]
    have hfb : stale_fallback env.fileAfterFailedSave env.now = (FetchRes.ok ms b, true) := by
      rw [hfile]
      simp [stale_fallback, load_cached_data, isExpired, hcontent, htr,
        CacheDict.getModels, CacheDict.getHasNext, h4, h5]
    unfold fetch_page_with_cache
    rw [hload, hnet, hsave]
    simp [hfb]

/-- Witness for the amended C1 at the concrete failing-save environment. -/
theorem save_failure_behaves_as_fetch_failure_c1_witness :
    fetch_page_with_cache envC1 0 = ⟨FetchRes.cacheError, true, false, none⟩ :=
  (save_failure_behaves_as_fetch_failure_c1 envC1 0
    { results := some [rmX], next_page_url := none } rfl rfl rfl).1 rfl

/-- C4 counterexample: a response that carries a `next_page_url` field whose
value is the empty string, with zero results, yields `has_next_page = false`
(the code tests Python truthiness, not field presence), and the fetch
returns that flag. -/
theorem has_next_page_counterexample_c4 :
    has_next_page_of respC4 = false ∧
    respC4.next_page_url.isSome = true ∧
    (respC4.results.getD []).length ≠ 20 ∧
    (fetch_page_with_cache envC4 0).res = FetchRes.ok [] false := by
  refine ⟨rfl, rfl, by decide, rfl⟩

/-- C4 amended: the computed `has_next_page` flag is true iff the response
carries a truthy (present and non-empty) `next_page_url` or the parsed
`results` list has length exactly 20; on a fresh successful fetch the
returned flag is exactly this computation. -/
theorem has_next_page_truthy_c4 :
    (∀ resp : ApiResponse,
        has_next_page_of resp = true ↔
        ((∃ u, resp.next_page_url = some u ∧ u ≠ "") ∨
          (resp.results.getD []).length = 20)) ∧
    (∀ (env : FetchEnv) (t : Int) (resp : ApiResponse),
        load_cached_data env.cacheFile env.now (some t) = none →
        env.net = NetResult.ok resp →
        env.saveOk = true →
        (fetch_page_with_cache env t).res
          = FetchRes.ok (resp.results.getD []) (has_next_page_of resp)) := by
  constructor
  · intro resp
    unfold has_next_page_of pyTruthyStr
    cases hn : resp.next_page_url with
    | none => simp
    | some u =>
      by_cases hu : u = ""
      · simp [hu]
      · simp [hu]
  · intro env t resp hload hnet hsave
    unfold fetch_page_with_cache
    rw [hload, hnet, hsave]
    simp [has_next_page_of]

/-- Witness for the amended C4 at a concrete successful fetch. -/
theorem has_next_page_truthy_c4_witness :
    (fetch_page_with_cache envW4 0).res
      = FetchRes.ok (respW4.results.getD []) (has_next_page_of respW4) :=
  has_next_page_truthy_c4.2 envW4 0 respW4 rfl rfl rfl

/-- C9: whether a cache entry counts as expired is decided solely by the
file's mtime against the timeout at read time: a present file loads iff it
is readable and `now - mtime ≤ timeout`; rewriting the stored `cached_at`
value never changes what `load_cached_data` decides or returns (beyond the
field itself riding along); and `cached_at` is written on save as the
current ISO timestamp. -/
theorem expiry_mtime_only_c9 :
    (∀ (cf : CacheFile) (now t : Int),
        (load_cached_data (some cf) now (some t)).isSome
          = (decide (now - cf.mtime ≤ t) && cf.content.isSome)) ∧
    (∀ (file : Option CacheFile) (now : Int) (tmo : Option Int) (s : Option String),
        load_cached_data (setCachedAt file s) now tmo
          = (load_cached_data file now tmo).map (fun d => { d with cached_at := s })) ∧
    (∀ (env : FetchEnv) (t : Int) (resp : ApiResponse),
        env.net = NetResult.ok resp →
        env.saveOk = true →
        load_cached_data env.cacheFile env.now (some t) = none →
        (fetch_page_with_cache env t).savedEntry
          = some ⟨some (resp.results.getD []), some (has_next_page_of resp), some env.nowIso⟩) := by
  refine ⟨?_, ?_, ?_⟩
  · intro cf now t
    by_cases h : now - cf.mtime > t
    · have h2 : ¬(now - cf.mtime ≤ t) := by omega
      simp [load_cached_data, isExpired, h, h2]
    · have h2 : now - cf.mtime ≤ t := by omega
      simp [load_cached_data, isExpired, h, h2]
  · intro file now tmo s
    cases file with
    | none => simp [setCachedAt, load_cached_data]
    | some cf =>
      simp only [setCachedAt, Option.map_some]
      unfold load_cached_data
      by_cases h : isExpired now cf.mtime tmo = true
      · simp [h]
      · simp only [Bool.not_eq_true] at h
        simp [h]
  · intro env t resp hnet hsave hload
    unfold fetch_page_with_cache
    rw [hload, hnet, hsave]
    rfl

/-- Witness for C9: the load decision at a concrete readable file, and the
saved entry of a concrete fresh fetch. -/
theorem expiry_mtime_only_c9_witness :
    (load_cached_data (some cf9) 3 (some 10)).isSome
      = (decide ((3 : Int) - cf9.mtime ≤ 10) && cf9.content.isSome) ∧
    (fetch_page_with_cache envW4 0).savedEntry
      = some ⟨some (respW4.results.getD []), some (has_next_page_of respW4), some ("NOW")⟩ :=
  ⟨expiry_mtime_only_c9.1 cf9 3 10,
   expiry_mtime_only_c9.2.2 envW4 0 respW4 rfl rfl rfl⟩

/-- C5: pagination stops exactly at a `CacheError`, a false `has_next_page`,
or an empty record list; on error no records come from the failing page and
earlier pages' records are preserved; and in the concrete three-page
scenario (page 3 empty) the driver yields exactly the records of pages 1
and 2, requests pages 1-3, and never requests page 4 (the result is the
same for every environment `e4` of the later pages). -/
theorem pagination_stop_c5 :
    (∀ (pageEnv : Nat → FetchEnv) (t : Int) (fuel page : Nat),
        (fetch_page_with_cache (pageEnv page) t).res = FetchRes.cacheError →
        get_marketplace_models pageEnv t (fuel + 1) page = ([], [page])) ∧
    (∀ (pageEnv : Nat → FetchEnv) (t : Int) (fuel page : Nat)
        (ms : List RawRecord) (b : Bool),
        (fetch_page_with_cache (pageEnv page) t).res = FetchRes.ok ms b →
        b = false ∨ ms = [] →
        get_marketplace_models pageEnv t (fuel + 1) page
          = (ms.map (fun m => normalize_model m page), [page])) ∧
    (∀ (pageEnv : Nat → FetchEnv) (t : Int) (fuel page : Nat)
        (ms : List RawRecord),
        (fetch_page_with_cache (pageEnv page) t).res = FetchRes.ok ms true →
        ms ≠ [] →
        get_marketplace_models pageEnv t (fuel + 1) page
          = (ms.map (fun m => normalize_model m page)
              ++ (get_marketplace_models pageEnv t fuel (page + 1)).1,
             page :: (get_marketplace_models pageEnv t fuel (page + 1)).2)) ∧
    (∀ e4 : FetchEnv,
        get_marketplace_models (env3 e4) 0 10 1
          = ([normalize_model rmA 1, normalize_model rmB 1,
              normalize_model rmC 2, normalize_model rmD 2], [1, 2, 3])) := by
  refine ⟨?_, ?_, ?_, ?_⟩
  · intro pageEnv t fuel page h
    simp [get_marketplace_models, h]
  · intro pageEnv t fuel page ms b h hstop
    rcases hstop with hb | hms
    · subst hb
      simp [get_marketplace_models, h]
    · subst hms
      simp [get_marketplace_models, h]
  · intro pageEnv t fuel page ms h hne
    have hemp : ms.isEmpty = false := by
      cases ms with
      | nil => exact absurd rfl hne
      | cons a l => rfl
    simp [get_marketplace_models, h, hemp]
  · intro e4
    rfl

/-- Witness for C5: the three-page scenario instantiated, plus a concrete
erroring page yielding no records. -/
theorem pagination_stop_c5_witness :
    get_marketplace_models (env3 errEnv) 0 10 1
      = ([normalize_model rmA 1, normalize_model rmB 1,
          normalize_model rmC 2, normalize_model rmD 2], [1, 2, 3]) ∧
    get_marketplace_models (fun _ => errEnv) 0 4 7 = ([], [7]) :=
  ⟨pagination_stop_c5.2.2.2 errEnv,
   pagination_stop_c5.1 (fun _ => errEnv) 0 3 7 (by decide)⟩

/-- The pages requested by the driver form a contiguous increasing block
starting at the initial page. -/
theorem driver_pages_range (pageEnv : Nat → FetchEnv) (t : Int) :
    ∀ fuel page, (get_marketplace_models pageEnv t fuel page).2
      = List.range' page (get_marketplace_models pageEnv t fuel page).2.length := by
  intro fuel
  induction fuel with
  | zero =>
    intro page
    rfl
  | succ fuel ih =>
    intro page
    cases h : (fetch_page_with_cache (pageEnv page) t).res with
    | cacheError =>
      simp [get_marketplace_models, h, List.range']
    | ok ms b =>
      by_cases hc : (b && !ms.isEmpty) = true
      · have h2 := ih (page + 1)
        simp only [get_marketplace_models, h, hc, if_true]
        simp only [List.length_cons, List.range'_succ, List.cons.injEq, true_and]
        exact h2
      · simp only [Bool.not_eq_true] at hc
        simp [get_marketplace_models, h, hc, List.range']

/-- Every record the driver yields arises from the fetch of the page its
`page` field names. -/
theorem driver_records_page (pageEnv : Nat → FetchEnv) (t : Int) :
    ∀ fuel page r, r ∈ (get_marketplace_models pageEnv t fuel page).1 →
      ∃ (ms : List RawRecord) (b : Bool),
        (fetch_page_with_cache (pageEnv r.page) t).res = FetchRes.ok ms b ∧
        ∃ m, m ∈ ms ∧ r = normalize_model m r.page := by
  intro fuel
  induction fuel with
  | zero =>
    intro page r hr
    simp [get_marketplace_models] at hr
  | succ fuel ih =>
    intro page r hr
    cases h : (fetch_page_with_cache (pageEnv page) t).res with
    | cacheError =>
      simp [get_marketplace_models, h] at hr
    | ok ms b =>
      have hpage : ∀ m : RawRecord, (normalize_model m page).page = page := fun m => rfl
      by_cases hc : (b && !ms.isEmpty) = true
      · simp only [get_marketplace_models, h, hc, if_true] at hr
        rcases List.mem_append.mp hr with hm | hm
        · rcases List.mem_map.mp hm with ⟨m, hmm, hrm⟩
          subst hrm
          rw [hpage m]
          exact ⟨ms, b, h, m, hmm, rfl⟩
        · exact ih (page + 1) r hm
      · simp only [Bool.not_eq_true] at hc
        simp only [get_marketplace_models, h, hc, if_false, Bool.false_eq_true] at hr
        rcases List.mem_map.mp hr with ⟨m, hmm, hrm⟩
        subst hrm
        rw [hpage m]
        exact ⟨ms, b, h, m, hmm, rfl⟩

/-- C8: the driver visits pages as a contiguous increasing block from the
start page (1 in the source), and every yielded normalized record carries a
(non-null, by construction) `page` field equal to the page whose fetch
produced its raw record. -/
theorem page_field_c8 :
    (∀ (pageEnv : Nat → FetchEnv) (t : Int) (fuel page : Nat),
        (get_marketplace_models pageEnv t fuel page).2
          = List.range' page (get_marketplace_models pageEnv t fuel page).2.length) ∧
    (∀ (pageEnv : Nat → FetchEnv) (t : Int) (fuel page : Nat) (r : NormalizedRecord),
        r ∈ (get_marketplace_models pageEnv t fuel page).1 →
        ∃ (ms : List RawRecord) (b : Bool),
          (fetch_page_with_cache (pageEnv r.page) t).res = FetchRes.ok ms b ∧
          ∃ m, m ∈ ms ∧ r = normalize_model m r.page) :=
  ⟨fun pageEnv t fuel page => driver_pages_range pageEnv t fuel page,
   fun pageEnv t fuel page r hr => driver_records_page pageEnv t fuel page r hr⟩

/-- Witness for C8 on the concrete three-page scenario. -/
theorem page_field_c8_witness :
    (get_marketplace_models (env3 errEnv) 0 10 1).2
      = List.range' 1 (get_marketplace_models (env3 errEnv) 0 10 1).2.length ∧
    (∃ (ms : List RawRecord) (b : Bool),
        (fetch_page_with_cache (env3 errEnv (normalize_model rmA 1).page) 0).res
          = FetchRes.ok ms b ∧
        ∃ m, m ∈ ms ∧ normalize_model rmA 1 = normalize_model m (normalize_model rmA 1).page) :=
  ⟨page_field_c8.1 (env3 errEnv) 0 10 1,
   page_field_c8.2 (env3 errEnv) 0 10 1 (normalize_model rmA 1) (by decide)⟩

/-- The fuel-bounded digit rendering agrees with `Nat.digits` once the fuel
covers the number. -/
theorem pyStrAux_eq_digits : ∀ fuel n, n ≤ fuel →
    pyStrAux fuel n = (Nat.digits 10 n).reverse.map (fun d => 48 + d) := by
  intro fuel
  induction fuel with
  | zero =>
    intro n hn
    have h0 : n = 0 := Nat.le_zero.mp hn
    subst h0
    simp [pyStrAux]
  | succ fuel ih =>
    intro n hn
    by_cases h0 : n = 0
    · subst h0
      simp [pyStrAux]
    · have hpos : 0 < n := Nat.pos_of_ne_zero h0
      have hdig : Nat.digits 10 n = n % 10 :: Nat.digits 10 (n / 10) :=
        Nat.digits_def' (by norm_num) hpos
      have hdiv : n / 10 ≤ fuel := by
        have := Nat.div_lt_self hpos (by norm_num : 1 < 10)
        omega
      rw [hdig]
      simp only [List.reverse_cons, List.map_append, List.map_cons, List.map_nil]
      rw [show pyStrAux (fuel + 1) n = pyStrAux fuel (n / 10) ++ [48 + n % 10] from by
        simp [pyStrAux, h0]]
      rw [ih (n / 10) hdiv]

/-- Closed form of the page-number rendering in terms of `Nat.digits`. -/
theorem pyStrNat_eq_digits (n : Nat) :
    pyStrNat n = if n = 0 then [48]
      else (Nat.digits 10 n).reverse.map (fun d => 48 + d) := by
  unfold pyStrNat
  by_cases h : n = 0
  · rw [if_pos h, if_pos h]
  · rw [if_neg h, if_neg h, pyStrAux_eq_digits n n (Nat.le_refl n)]

/-- Every code point of a rendered page number is a decimal digit
(48 ≤ c ≤ 57). -/
theorem pyStrNat_digit_codes (n : Nat) : ∀ c ∈ pyStrNat n, 48 ≤ c ∧ c ≤ 57 := by
  intro c hc
  rw [pyStrNat_eq_digits] at hc
  by_cases h : n = 0
  · rw [if_pos h] at hc
    simp at hc
    omega
  · rw [if_neg h] at hc
    simp only [List.mem_map, List.mem_reverse] at hc
    obtain ⟨d, hd, rfl⟩ := hc
    have hlt : d < 10 := Nat.digits_lt_base (by norm_num) hd
    omega

/-- Decimal rendering of page numbers is injective. -/
theorem pyStrNat_inj : ∀ a b : Nat, pyStrNat a = pyStrNat b → a = b := by
  have hmap : Function.Injective (fun d : Nat => 48 + d) := by
    intro x y hxy
    exact Nat.add_left_cancel hxy
  have hzero : ∀ b : Nat, b ≠ 0 →
      [48] = (Nat.digits 10 b).reverse.map (fun d => 48 + d) → False := by
    intro b hb h
    have hlen := congrArg List.length h
    simp only [List.length_cons, List.length_nil, List.length_map,
      List.length_reverse] at hlen
    obtain ⟨d, hd⟩ := List.length_eq_one.mp hlen.symm
    rw [hd] at h
    simp only [List.reverse_cons, List.reverse_nil, List.nil_append,
      List.map_cons, List.map_nil, List.cons.injEq, and_true] at h
    have hb0 : b = 0 := by
      have h2 := congrArg (Nat.ofDigits 10) hd
      rw [Nat.ofDigits_digits, Nat.ofDigits_cons, Nat.ofDigits_nil] at h2
      omega
    exact hb hb0
  intro a b h
  rw [pyStrNat_eq_digits a, pyStrNat_eq_digits b] at h
  by_cases ha : a = 0 <;> by_cases hb : b = 0
  · rw [ha, hb]
  · exact absurd (by rw [if_pos ha, if_neg hb] at h; exact h) (fun h2 => hzero b hb h2)
  · exact absurd (by rw [if_neg ha, if_pos hb] at h; exact h.symm) (fun h2 => hzero a ha h2)
  · rw [if_neg ha, if_neg hb] at h
    have h2 := List.map_injective_iff.mpr hmap h
    have h3 := List.reverse_injective h2
    have h4 := congrArg (Nat.ofDigits 10) h3
    rwa [Nat.ofDigits_digits, Nat.ofDigits_digits] at h4

/-- Cancellation through a digit block: if two lists each consist of a run of
digit code points followed by a tail that starts with a non-digit, equality
of the concatenations forces equality of the runs and of the tails. -/
theorem digit_block_split : ∀ d1 : List Nat, (∀ c ∈ d1, 48 ≤ c ∧ c ≤ 57) →
    ∀ d2 t1 t2 : List Nat, (∀ c ∈ d2, 48 ≤ c ∧ c ≤ 57) →
    (∀ c, t1.head? = some c → ¬(48 ≤ c ∧ c ≤ 57)) →
    (∀ c, t2.head? = some c → ¬(48 ≤ c ∧ c ≤ 57)) →
    d1 ++ t1 = d2 ++ t2 → d1 = d2 ∧ t1 = t2 := by
  intro d1
  induction d1 with
  | nil =>
    intro _ d2 t1 t2 h2 ht1 ht2 heq
    cases d2 with
    | nil =>
      simp only [List.nil_append] at heq
      exact ⟨rfl, heq⟩
    | cons b d2' =>
      simp only [List.nil_append, List.cons_append] at heq
      exact absurd (h2 b (List.mem_cons_self b d2')) (ht1 b (by rw [heq]; rfl))
  | cons a d1' ih =>
    intro h1 d2 t1 t2 h2 ht1 ht2 heq
    cases d2 with
    | nil =>
      simp only [List.nil_append, List.cons_append] at heq
      exact absurd (h1 a (List.mem_cons_self a d1')) (ht2 a (by rw [← heq]; rfl))
    | cons b d2' =>
      simp only [List.cons_append, List.cons.injEq] at heq
      obtain ⟨hab, heq2⟩ := heq
      have hrest := ih (fun c hc => h1 c (List.mem_cons_of_mem a hc)) d2' t1 t2
        (fun c hc => h2 c (List.mem_cons_of_mem b hc)) ht1 ht2 heq2
      exact ⟨by rw [hab, hrest.1], hrest.2⟩

/-- The tail following the page digits in a cache path (family suffix plus
`.json`) starts with a non-digit code point: 95 for a truthy filter,
46 (the dot) otherwise. -/
theorem suffix_head_not_digit (f : Option (List Nat))
    (hf : f = none ∨ ∃ l, f = some l ∧ l ≠ []) :
    ∀ c, (familySuffix f ++ strCodes (".json")).head? = some c →
      ¬(48 ≤ c ∧ c ≤ 57) := by
  intro c hc
  rcases hf with rfl | ⟨l, rfl, hl⟩
  · have h46 : (familySuffix none ++ strCodes (".json")).head? = some 46 := rfl
    rw [h46] at hc
    simp at hc
    omega
  · have hemp : l.isEmpty = false := by
      cases l with
      | nil => exact absurd rfl hl
      | cons x xs => rfl
    simp [familySuffix, hemp] at hc
    omega

/-- Splitting a code-point string never yields an empty segment list. -/
theorem pathSplit_ne_nil : ∀ l : List Nat, pathSplit l ≠ [] := by
  intro l
  cases l with
  | nil => simp [pathSplit]
  | cons c rest =>
    simp only [pathSplit]
    cases pathSplit rest with
    | nil => simp
    | cons seg segs =>
      by_cases h : c = 47
      · simp [h]
      · simp [h]

/-- Splitting distributes over a separator between two strings. -/
theorem pathSplit_append_slash : ∀ X Y : List Nat,
    pathSplit (X ++ 47 :: Y) = pathSplit X ++ pathSplit Y := by
  intro X Y
  induction X with
  | nil =>
    cases hY : pathSplit Y with
    | nil => exact absurd hY (pathSplit_ne_nil Y)
    | cons seg segs => simp [pathSplit, hY]
  | cons c X2 ih =>
    cases hX : pathSplit X2 with
    | nil => exact absurd hX (pathSplit_ne_nil X2)
    | cons seg segs =>
      have hX2 : pathSplit (X2 ++ 47 :: Y) = (seg :: segs) ++ pathSplit Y := by
        rw [ih, hX]
      by_cases h : c = 47
      · subst h
        simp [pathSplit, hX2, hX]
      · simp [pathSplit, hX2, hX, h]

/-- A separator-free string is a single path segment. -/
theorem pathSplit_no_slash : ∀ l : List Nat, (∀ c ∈ l, c ≠ 47) →
    pathSplit l = [l] := by
  intro l
  induction l with
  | nil =>
    intro _
    rfl
  | cons c rest ih =>
    intro h
    have hc : c ≠ 47 := h c (List.mem_cons_self c rest)
    have hrest := ih (fun x hx => h x (List.mem_cons_of_mem c hx))
    simp [pathSplit, hrest, hc]

/-- For an absent or nonempty separator-free family filter, the cache file
name `models_page{p}[_{f}].json` contains no path separator. -/
theorem cache_name_no_slash (f : Option (List Nat))
    (hf : f = none ∨ ∃ l, f = some l ∧ l ≠ [] ∧ ¬47 ∈ l) (p : Nat) :
    ∀ c ∈ strCodes ("models_page") ++
        (pyStrNat p ++ (familySuffix f ++ strCodes (".json"))), c ≠ 47 := by
  intro c hc
  simp only [List.mem_append] at hc
  rcases hc with hc | hc | hc | hc
  · have hall : ∀ x ∈ strCodes ("models_page"), x ≠ 47 := by decide
    exact hall c hc
  · have := pyStrNat_digit_codes p c hc
    omega
  · rcases hf with rfl | ⟨l, rfl, hl, hl47⟩
    · simp [familySuffix] at hc
    · have hemp : l.isEmpty = false := by
        cases l with
        | nil => exact absurd rfl hl
        | cons x xs => rfl
      simp only [familySuffix, hemp, Bool.false_eq_true, if_false,
        List.mem_cons] at hc
      rcases hc with rfl | hc
      · omega
      · intro h47
        subst h47
        exact hl47 hc
  · have hall : ∀ x ∈ strCodes (".json"), x ≠ 47 := by decide
    exact hall c hc

/-- A separator-free string starting with the letter m is a single
undropped path segment. -/
theorem pathParts_name (N : List Nat) (hno : ∀ c ∈ N, c ≠ 47)
    (hhead : ∃ tail, N = 109 :: tail) : pathParts N = [N] := by
  unfold pathParts
  rw [pathSplit_no_slash N hno]
  obtain ⟨tail, htail⟩ := hhead
  subst htail
  simp [isDropped]

/-- C7 counterexample: two families of distinct key pairs map to the same
cache path.  First, (page 1, no filter) and (page 1, empty-string filter)
collide, because the source's `if config.model_family:` truthiness test
drops the suffix for an empty filter exactly as for a missing one.  Second,
the nonempty filters `a//b` and `a/b` collide, because `pathlib`'s join at
source line 52 collapses the duplicate separator when parsing the path. -/
theorem cache_path_counterexample_c7 :
    (get_cache_path cfgNone 1 = get_cache_path cfgEmpty 1 ∧
      cfgNone.model_family ≠ cfgEmpty.model_family) ∧
    (get_cache_path cfgSlash2 1 = get_cache_path cfgSlash1 1 ∧
      cfgSlash2.model_family ≠ cfgSlash1.model_family) :=
  ⟨⟨rfl, by decide⟩, ⟨by decide, by decide⟩⟩

/-- C7 amended: `get_cache_path` is a pure function of (configuration, page)
— it is a Lean function of those arguments alone — and it is injective on
(page, family filter) pairs whose filter is absent, or nonempty and free of
the path separator.  Outside that class paths collide: the empty-string
filter coincides with the absent one (Python truthiness), and filters that
differ only up to `pathlib` path normalization (duplicate separators,
`.` segments) coincide. -/
theorem cache_path_injective_c7 :
    ∀ (cfg : GithubModels) (p1 p2 : Nat) (f1 f2 : Option (List Nat)),
    (f1 = none ∨ ∃ l, f1 = some l ∧ l ≠ [] ∧ ¬47 ∈ l) →
    (f2 = none ∨ ∃ l, f2 = some l ∧ l ≠ [] ∧ ¬47 ∈ l) →
    get_cache_path { cfg with model_family := f1 } p1
      = get_cache_path { cfg with model_family := f2 } p2 →
    p1 = p2 ∧ f1 = f2 := by
  intro cfg p1 p2 f1 f2 hf1 hf2 h
  have hf1w : f1 = none ∨ ∃ l, f1 = some l ∧ l ≠ [] := by
    rcases hf1 with rfl | ⟨l, rfl, hl, _⟩
    · exact Or.inl rfl
    · exact Or.inr ⟨l, rfl, hl⟩
  have hf2w : f2 = none ∨ ∃ l, f2 = some l ∧ l ≠ [] := by
    rcases hf2 with rfl | ⟨l, rfl, hl, _⟩
    · exact Or.inl rfl
    · exact Or.inr ⟨l, rfl, hl⟩
  have hhead1 : ∃ tail, strCodes ("models_page") ++
      (pyStrNat p1 ++ (familySuffix f1 ++ strCodes (".json"))) = 109 :: tail :=
    ⟨strCodes ("odels_page") ++
      (pyStrNat p1 ++ (familySuffix f1 ++ strCodes (".json"))), rfl⟩
  have hhead2 : ∃ tail, strCodes ("models_page") ++
      (pyStrNat p2 ++ (familySuffix f2 ++ strCodes (".json"))) = 109 :: tail :=
    ⟨strCodes ("odels_page") ++
      (pyStrNat p2 ++ (familySuffix f2 ++ strCodes (".json"))), rfl⟩
  have hsplitA : ∀ N : List Nat, pathParts (cfg.cache_dir ++ 47 :: N)
      = pathParts cfg.cache_dir ++ pathParts N := by
    intro N
    unfold pathParts
    rw [pathSplit_append_slash, List.filter_append]
  have h0 : pathParts (cfg.cache_dir ++ 47 ::
        (strCodes ("models_page") ++
          (pyStrNat p1 ++ (familySuffix f1 ++ strCodes (".json")))))
      = pathParts (cfg.cache_dir ++ 47 ::
        (strCodes ("models_page") ++
          (pyStrNat p2 ++ (familySuffix f2 ++ strCodes (".json"))))) := h
  rw [hsplitA, hsplitA] at h0
  have h1 := List.append_cancel_left h0
  rw [pathParts_name _ (cache_name_no_slash f1 hf1 p1) hhead1,
    pathParts_name _ (cache_name_no_slash f2 hf2 p2) hhead2] at h1
  have h3 : strCodes ("models_page") ++
      (pyStrNat p1 ++ (familySuffix f1 ++ strCodes (".json")))
      = strCodes ("models_page") ++
      (pyStrNat p2 ++ (familySuffix f2 ++ strCodes (".json"))) := by
    simpa using h1
  have h5 := List.append_cancel_left h3
  have hsplit := digit_block_split (pyStrNat p1) (pyStrNat_digit_codes p1)
    (pyStrNat p2) (familySuffix f1 ++ strCodes (".json"))
    (familySuffix f2 ++ strCodes (".json")) (pyStrNat_digit_codes p2)
    (suffix_head_not_digit f1 hf1w) (suffix_head_not_digit f2 hf2w) h5
  refine ⟨pyStrNat_inj p1 p2 hsplit.1, ?_⟩
  have h6 := List.append_cancel_right hsplit.2
  rcases hf1 with rfl | ⟨l1, rfl, hl1, _⟩ <;> rcases hf2 with rfl | ⟨l2, rfl, hl2, _⟩
  · rfl
  · exfalso
    have hemp2 : l2.isEmpty = false := by
      cases l2 with
      | nil => exact absurd rfl hl2
      | cons x xs => rfl
    rw [show familySuffix none = [] from rfl] at h6
    simp [familySuffix, hemp2] at h6
  · exfalso
    have hemp1 : l1.isEmpty = false := by
      cases l1 with
      | nil => exact absurd rfl hl1
      | cons x xs => rfl
    rw [show familySuffix none = [] from rfl] at h6
    simp [familySuffix, hemp1] at h6
  · have hemp1 : l1.isEmpty = false := by
      cases l1 with
      | nil => exact absurd rfl hl1
      | cons x xs => rfl
    have hemp2 : l2.isEmpty = false := by
      cases l2 with
      | nil => exact absurd rfl hl2
      | cons x xs => rfl
    simp only [familySuffix, hemp2, hemp1, if_false, Bool.false_eq_true,
      List.cons.injEq, true_and] at h6
    rw [h6]

/-- Witness for the amended C7 at a concrete separator-free filter. -/
theorem cache_path_injective_c7_witness :
    5 = 5 ∧ (some [97] : Option (List Nat)) = some [97] :=
  cache_path_injective_c7 cfgNone 5 5 (some [97]) (some [97])
    (Or.inr ⟨[97], rfl, by decide⟩) (Or.inr ⟨[97], rfl, by decide⟩) rfl
